import Mathlib

/-!
Verification of the uchroma hardware layer against its specification.

The Python/Cython sources are shallowly embedded: bytes are `Nat` values
(reduced `% 256` where the source stores into a byte), buffers are `List Nat`,
temperatures are `ℚ`, and fallible calls return explicit outcome types.
-/

set_option autoImplicit false

namespace UChroma

/-
§1  Report CRC — from `src/uchroma/server/crc.pyx`:

    def fast_crc(char *buf):
        cdef unsigned int i
        cdef unsigned char crc = 0
        for i in range(1, 87):
            crc ^= buf[i]
        return crc
-/

/-- Embedding of `fast_crc`: XOR of the bytes at indices 1..86 (i.e. the loop
`for i in range(1, 87)`), starting from 0.  Out-of-range reads yield 0. -/
def fast_crc (buf : List Nat) : Nat :=
  (List.range' 1 86).foldl (fun crc i => crc ^^^ buf.getD i 0) 0

/-
§2  Report packing.  `RazerReport._pack_request` is not under `src/` (only its
unit tests in the hardware-refactor document and the wire-format table in
`docs/reference/devices.md` are), so the packer is modelled from the spec.
-/

/-- Fields of a request report, as listed by the spec for `pack`. -/
structure Request where
  transaction_id : Nat
  remaining_packets : Nat := 0
  data_size : Nat
  command_class : Nat
  command_id : Nat
  args : List Nat := []
deriving DecidableEq

/-- The 80-byte argument block: the arguments padded with zeros. -/
def padArgs (a : List Nat) : List Nat :=
  a.take 80 ++ List.replicate (80 - a.length) 0

/-- Modelled from the spec: `RazerReport._pack_request` is missing from
`src/` (only its tests are present).  First 88 bytes of a request report:
status 0, transaction id, remaining packets (big-endian u16), protocol type 0,
data size, command class, command id, then the 80-byte argument block. -/
def packBody (r : Request) : List Nat :=
  [0, r.transaction_id % 256,
   r.remaining_packets / 256 % 256, r.remaining_packets % 256,
   0, r.data_size % 256, r.command_class % 256, r.command_id % 256]
    ++ padArgs r.args

/-- Modelled from the spec: `pack(request) → [90]u8` fills the fields and
installs the CRC at byte 88, with reserved byte 89 equal to zero. -/
def pack (r : Request) : List Nat :=
  packBody r ++ [fast_crc (packBody r), 0]

/-- Modelled from the spec: a multi-packet transfer emits the packets
contiguously, `remaining_packets` of the i-th packet counting the additional
packets after it. -/
def emit_packets (rs : List Request) : List (List Nat) :=
  (List.range rs.length).zip rs |>.map
    fun p => pack { p.2 with remaining_packets := rs.length - 1 - p.1 }

/-
§3  Effect registry — `uchroma/server/effects.py` as written out in the
hardware-refactor document (src/unnamed/part_005, Phase 3).
-/

/-- Embedding of `EffectDef`. -/
structure EffectDef where
  name : String
  legacy_id : Option Nat
  extended_id : Option Nat
  description : String := ""
  max_colors : Nat := 0
  has_speed : Bool := false
  has_direction : Bool := false
deriving DecidableEq

def Effects.DISABLE : EffectDef :=
  { name := "disable", legacy_id := some 0x00, extended_id := some 0x00,
    description := "Disable all effects" }

def Effects.STATIC : EffectDef :=
  { name := "static", legacy_id := some 0x06, extended_id := some 0x01,
    description := "Static color", max_colors := 1 }

def Effects.SPECTRUM : EffectDef :=
  { name := "spectrum", legacy_id := some 0x04, extended_id := some 0x03,
    description := "Cycle through all colors" }

def Effects.WAVE : EffectDef :=
  { name := "wave", legacy_id := some 0x01, extended_id := some 0x04,
    description := "Wave animation", has_direction := true }

def Effects.BREATHE : EffectDef :=
  { name := "breathe", legacy_id := some 0x03, extended_id := some 0x02,
    description := "Breathing colors", max_colors := 2 }

def Effects.REACTIVE : EffectDef :=
  { name := "reactive", legacy_id := some 0x02, extended_id := some 0x05,
    description := "React to keypresses", max_colors := 1, has_speed := true }

def Effects.STARLIGHT : EffectDef :=
  { name := "starlight", legacy_id := some 0x19, extended_id := some 0x07,
    description := "Sparkling effect", max_colors := 2, has_speed := true }

def Effects.CUSTOM_FRAME : EffectDef :=
  { name := "custom_frame", legacy_id := some 0x05, extended_id := some 0x08,
    description := "Display custom frame" }

def Effects.GRADIENT : EffectDef :=
  { name := "gradient", legacy_id := some 0x0A, extended_id := none }

def Effects.SWEEP : EffectDef :=
  { name := "sweep", legacy_id := some 0x0C, extended_id := none }

def Effects.MORPH : EffectDef :=
  { name := "morph", legacy_id := some 0x11, extended_id := none }

def Effects.FIRE : EffectDef :=
  { name := "fire", legacy_id := some 0x12, extended_id := none }

def Effects.RIPPLE_SOLID : EffectDef :=
  { name := "ripple_solid", legacy_id := some 0x13, extended_id := none }

def Effects.RIPPLE : EffectDef :=
  { name := "ripple", legacy_id := some 0x14, extended_id := none }

/-- `getattr(cls, effect_name.upper(), None)`: the class attribute named by
the upper-cased effect name, i.e. the registry entry for that effect name. -/
def Effects.attr (effect_name : String) : Option EffectDef :=
  match effect_name with
  | "disable" => some Effects.DISABLE
  | "static" => some Effects.STATIC
  | "spectrum" => some Effects.SPECTRUM
  | "wave" => some Effects.WAVE
  | "breathe" => some Effects.BREATHE
  | "reactive" => some Effects.REACTIVE
  | "starlight" => some Effects.STARLIGHT
  | "custom_frame" => some Effects.CUSTOM_FRAME
  | "gradient" => some Effects.GRADIENT
  | "sweep" => some Effects.SWEEP
  | "morph" => some Effects.MORPH
  | "fire" => some Effects.FIRE
  | "ripple_solid" => some Effects.RIPPLE_SOLID
  | "ripple" => some Effects.RIPPLE
  | _ => none

/-- Embedding of `Effects.get_id`. -/
def Effects.get_id (effect_name : String) (uses_extended : Bool) : Option Nat :=
  match Effects.attr effect_name with
  | none => none
  | some effect => if uses_extended then effect.extended_id else effect.legacy_id

/-- Embedding of `Effects.supports_protocol`. -/
def Effects.supports_protocol (effect_name : String) (uses_extended : Bool) : Bool :=
  (Effects.get_id effect_name uses_extended).isSome

/-
§4  Protocol profiles — `uchroma/server/protocol.py` as written out in the
hardware-refactor document (src/unnamed/part_005, Phase 2).
-/

inductive ProtocolVersion
  | legacy
  | extended
  | modern
  | wireless_kb
  | headset_v1
  | headset_v2
  | special
deriving DecidableEq

/-- Embedding of `ProtocolConfig` (`inter_command_delay` is seconds). -/
structure ProtocolConfig where
  version : ProtocolVersion
  transaction_id : Nat
  uses_extended_fx : Bool := false
  inter_command_delay : ℚ := 7 / 1000
  crc_skip_on_ok : Bool := false
deriving DecidableEq

def ProtocolConfig.LEGACY : ProtocolConfig :=
  { version := .legacy, transaction_id := 0xFF, uses_extended_fx := false }

def ProtocolConfig.EXTENDED : ProtocolConfig :=
  { version := .extended, transaction_id := 0x3F, uses_extended_fx := true }

def ProtocolConfig.MODERN : ProtocolConfig :=
  { version := .modern, transaction_id := 0x1F, uses_extended_fx := true }

def ProtocolConfig.WIRELESS_KB : ProtocolConfig :=
  { version := .wireless_kb, transaction_id := 0x9F, uses_extended_fx := true }

/-- The configurations predefined as `ClassVar`s on `ProtocolConfig`. -/
def predefined_configs : List ProtocolConfig :=
  [ProtocolConfig.LEGACY, ProtocolConfig.EXTENDED,
   ProtocolConfig.MODERN, ProtocolConfig.WIRELESS_KB]

/-- The transaction-code quirk flags a device may carry. -/
structure Quirks where
  transaction_code_3f : Bool := false
  transaction_code_1f : Bool := false
  transaction_code_9f : Bool := false
  transaction_code_08 : Bool := false
deriving DecidableEq

/-- Embedding of `get_protocol_from_quirks`. -/
def get_protocol_from_quirks (q : Quirks) : ProtocolConfig :=
  if q.transaction_code_9f then ProtocolConfig.WIRELESS_KB
  else if q.transaction_code_1f then ProtocolConfig.MODERN
  else if q.transaction_code_3f then ProtocolConfig.EXTENDED
  else ProtocolConfig.LEGACY

/-- Embedding of the transaction-id fallback in `get_report` (refactor
document §2.2). -/
def get_report_transaction_id (q : Quirks) (tid : Option Nat) : Nat :=
  match tid with
  | some t => t
  | none =>
      if q.transaction_code_3f then 0x3F
      else if q.transaction_code_1f then 0x1F
      else if q.transaction_code_9f then 0x9F
      else if q.transaction_code_08 then 0x08
      else 0xFF

/-- Modelled from the spec: `set_effect` resolves the id through the effect
table using the active profile's extended-class flag (the resolution itself is
`Effects.get_id` from the refactor document) and fails with UNSUPPORTED
(status 0x05) when the selected column is absent. -/
def set_effect_id (p : ProtocolConfig) (effect_name : String) : Except Nat Nat :=
  match Effects.get_id effect_name p.uses_extended_fx with
  | none => .error 0x05
  | some i => .ok i

/-
§5  Laptop system control — refactor document Phase 8: `FanLimits`,
`SystemControlMixin.set_fan_rpm`, the safety constants and
`check_thermal_safety`, and the wireless `idle_timeout` setter.
-/

/-- Embedding of `FanLimits`. -/
structure FanLimits where
  min_rpm : ℤ := 0
  min_manual_rpm : ℤ := 3500
  max_rpm : ℤ := 5000
  supports_dual_fan : Bool := false
deriving DecidableEq

/-- Embedding of the model-specific `FAN_LIMITS` table. -/
def FAN_LIMITS : List (String × FanLimits) :=
  [("Blade 15", { max_rpm := 5000 }),
   ("Blade 17", { max_rpm := 5300, supports_dual_fan := true }),
   ("Blade 14", { max_rpm := 5000 }),
   ("Blade Stealth", { max_rpm := 4500 }),
   ("default", { max_rpm := 5000 })]

/-- Outcome of a fan-control call: `notSupported` (returns False, no
command), `invalidArgument` (ValueError raised, no command), `forcedAuto`
(the thermal failsafe issued `set_fan_auto`), or the SET_FAN_MODE command
issued with the given argument bytes. -/
inductive FanOutcome
  | notSupported
  | invalidArgument
  | forcedAuto
  | command (args : List ℤ)
deriving DecidableEq

/-- The SET_FAN_MODE argument lists a `FanOutcome` sends to the device
(`forcedAuto` is `set_fan_auto`, which sends a single 0x00). -/
def fan_commands : FanOutcome → List (List ℤ)
  | .command args => [args]
  | .forcedAuto => [[0]]
  | _ => []

/-- Embedding of `SystemControlMixin.set_fan_rpm`; `supports` is
`supports_system_control`, the result records the validation outcome and the
argument bytes of the issued command. -/
def set_fan_rpm (supports : Bool) (limits : FanLimits) (rpm : ℤ)
    (fan2_rpm : Option ℤ) : FanOutcome :=
  if !supports then .notSupported
  else if rpm ≠ 0 ∧ rpm < limits.min_manual_rpm then .invalidArgument
  else if rpm ≠ 0 ∧ limits.max_rpm < rpm then .invalidArgument
  else
    let args := [rpm / 256 % 256, rpm % 256]
    match fan2_rpm with
    | some f2 =>
        if limits.supports_dual_fan then
          if f2 < limits.min_manual_rpm ∨ limits.max_rpm < f2 then
            .invalidArgument
          else .command (args ++ [f2 / 256 % 256, f2 % 256])
        else .command args
    | none => .command args

/-- Safety constant from the refactor document. -/
def THERMAL_CRITICAL : ℚ := 95

/-- Embedding of `check_thermal_safety`: true when thermally safe; when any
reading exceeds `THERMAL_CRITICAL` the device is forced to automatic cooling
and false is returned. -/
def check_thermal_safety (cpu_temp gpu_temp : ℚ) : Bool :=
  if THERMAL_CRITICAL < cpu_temp ∨ THERMAL_CRITICAL < gpu_temp then false
  else true

/-- Modelled from the spec: manual fan control is gated by the thermal-safety
check, and a failed check forces `set_fan_auto()` instead of applying the
requested RPM (the gating caller is not under src). -/
def manual_fan_request (cpu_temp gpu_temp : ℚ) (limits : FanLimits)
    (rpm : ℤ) (fan2_rpm : Option ℤ) : FanOutcome :=
  if check_thermal_safety cpu_temp gpu_temp then
    set_fan_rpm true limits rpm fan2_rpm
  else .forcedAuto

/-- The clamp performed by the `idle_timeout` setter:
`seconds = max(60, min(900, seconds))`. -/
def clamp_idle (seconds : ℤ) : ℤ :=
  max 60 (min 900 seconds)

/-- Embedding of the `WirelessMixin.idle_timeout` setter: the two big-endian
argument bytes passed to SET_IDLE_TIME. -/
def idle_timeout_set (seconds : ℤ) : ℤ × ℤ :=
  ((clamp_idle seconds / 256) % 256, clamp_idle seconds % 256)

/-
§6  Plasma effect — from `src/uchroma/fxlib/_plasma.pyx`.  The C doubles and
the libm sin/cos/sqrt are idealised as real numbers and the real functions.
-/

/-- Python list indexing `xs[i]`: a negative index counts from the end. -/
def pyGet {α : Type} (xs : List α) (i : ℤ) : Option α :=
  if 0 ≤ i then xs.get? i.toNat
  else if (-i).toNat ≤ xs.length then xs.get? (xs.length - (-i).toNat)
  else none

/-- C cast of a double to int: truncation toward zero. -/
noncomputable def cIntTrunc (x : ℝ) : ℤ :=
  if 0 ≤ x then ⌊x⌋ else -⌊-x⌋

/-- The `val` computed by the loop body of `draw_plasma` at (row, col). -/
noncomputable def plasmaVal (width height duration : ℝ) (row col : ℕ) : ℝ :=
  (Real.sin (2 * ((col : ℝ) / width * Real.sin (duration / 2)
      + (row : ℝ) / (height * (width / height)) * Real.cos (duration / 3))
      + duration))
    + Real.sin (Real.sqrt (20 *
        ((col : ℝ) / width * Real.sin (duration / 5)
            * ((col : ℝ) / width * Real.sin (duration / 5))
          + (row : ℝ) / (height * (width / height)) * Real.cos (duration / 3)
            * ((row : ℝ) / (height * (width / height)) * Real.cos (duration / 3)))
        + 1) + duration)

/-- `pos = glen * ((1.0 + sin(pi * val)) / 2.0)`. -/
noncomputable def plasmaPos (glen v : ℝ) : ℝ :=
  glen * ((1 + Real.sin (Real.pi * v)) / 2)

/-- The gradient index `int(pos) - 1` computed for cell (row, col). -/
noncomputable def plasmaIdx {α : Type} (gradient : List α)
    (width height duration : ℝ) (row col : ℕ) : ℤ :=
  cIntTrunc (plasmaPos (gradient.length : ℝ)
    (plasmaVal width height duration row col)) - 1

/-- One cell written by `draw_plasma`: `gradient[int(pos) - 1]`. -/
noncomputable def plasmaCell {α : Type} (gradient : List α)
    (width height duration : ℝ) (row col : ℕ) : Option α :=
  pyGet gradient (plasmaIdx gradient width height duration row col)

/-- Embedding of `draw_plasma`: the matrix written by the loops
`for col in range(int(width))`, `for row in range(int(height))`; `H` and `W`
stand for `int(height)` and `int(width)`. -/
noncomputable def draw_plasma {α : Type} (gradient : List α)
    (width height duration : ℝ) (H W : ℕ) : List (List (Option α)) :=
  (List.range H).map fun row => (List.range W).map fun col =>
    plasmaCell gradient width height duration row col

/-
§7  Layer blending helpers — skimage-derived `coords_inside_image` and
`set_color` (src/unnamed/part_012).  The input image and colours are RGBA
quadruples of ℚ (finite numpy float64 values idealised as rationals); the
numpy index arrays rr, cc are modelled as one list of (row, column) pairs,
and the scalar-`alpha` branch (`np.isscalar(alpha)`) is embedded.  The
compositing division can leave the finite range: numpy gives x/0 = ±inf for
x ≠ 0 and 0/0 = NaN, and `np.clip` maps ±inf to the bounds but passes NaN
through, so stored pixels are quadruples of `NpFloat` values.
-/

/-- An RGBA pixel. -/
structure RGBA where
  r : ℚ
  g : ℚ
  b : ℚ
  a : ℚ
deriving DecidableEq

/-- The all-zero pixel. -/
def RGBA.zero : RGBA := ⟨0, 0, 0, 0⟩

/-- Embedding of `coords_inside_image`: the mask
`(rr >= 0) & (rr < shape[0]) & (cc >= 0) & (cc < shape[1])` applied to the
coordinate pairs. -/
def coords_inside_image (coords : List (ℤ × ℤ)) (hgt wid : ℕ) :
    List (ℤ × ℤ) :=
  coords.filter fun p =>
    decide (0 ≤ p.1 ∧ p.1 < (hgt : ℤ) ∧ 0 ≤ p.2 ∧ p.2 < (wid : ℤ))

/-- Row `r` of the image (empty when out of range). -/
def getRow (img : List (List RGBA)) (r : ℕ) : List RGBA :=
  (img[r]?).getD []

/-- Pixel read `img[p]` (zero when out of range). -/
def getPix (img : List (List RGBA)) (p : ℕ × ℕ) : RGBA :=
  ((getRow img p.1)[p.2]?).getD RGBA.zero

/-- `img.shape`. -/
def gridShape (img : List (List RGBA)) : ℕ × ℕ :=
  (img.length, (img.headD []).length)

/-- `np.clip(x, a_min=0, a_max=1)` on one channel. -/
def clip01 (x : ℚ) : ℚ :=
  max 0 (min 1 x)

/-- `color = color * alpha[..., np.newaxis]` for a scalar alpha. -/
def scaleColor (c : RGBA) (alpha : ℚ) : RGBA :=
  ⟨c.r * alpha, c.g * alpha, c.b * alpha, c.a * alpha⟩

/-- A numpy float64 value as the blend can produce it: a finite value
(idealised as a rational), one of the two infinities, or NaN. -/
inductive NpFloat where
  | fin (q : ℚ)
  | pinf
  | ninf
  | nan
deriving DecidableEq

/-- numpy division of finite operands: for a zero divisor, x/0 is ±inf when
x ≠ 0 and 0/0 is NaN. -/
def npDiv (x y : ℚ) : NpFloat :=
  if y ≠ 0 then .fin (x / y)
  else if 0 < x then .pinf
  else if x < 0 then .ninf
  else .nan

/-- `np.clip(v, 0, 1)`: clips finite values, maps ±inf to the bounds, and
passes NaN through unchanged. -/
def npClip01 : NpFloat → NpFloat
  | .fin q => .fin (clip01 q)
  | .pinf => .fin 1
  | .ninf => .fin 0
  | .nan => .nan

/-- A stored RGBA pixel: four numpy-float channels. -/
structure NpRGBA where
  r : NpFloat
  g : NpFloat
  b : NpFloat
  a : NpFloat
deriving DecidableEq

/-- A finite pixel viewed as a stored pixel. -/
def RGBA.toNp (c : RGBA) : NpRGBA :=
  ⟨.fin c.r, .fin c.g, .fin c.b, .fin c.a⟩

/-- The input image viewed as a stored image. -/
def liftGrid (img : List (List RGBA)) : List (List NpRGBA) :=
  img.map (List.map RGBA.toNp)

/-- Row `r` of a stored image (empty when out of range). -/
def getRowNp (img : List (List NpRGBA)) (r : ℕ) : List NpRGBA :=
  (img[r]?).getD []

/-- Stored-pixel read `img[p]` (zero pixel when out of range). -/
def getPixNp (img : List (List NpRGBA)) (p : ℕ × ℕ) : NpRGBA :=
  ((getRowNp img p.1)[p.2]?).getD RGBA.zero.toNp

/-- Stored-pixel write `img[p] = v` (no-op when out of range). -/
def setPixNp (img : List (List NpRGBA)) (p : ℕ × ℕ) (v : NpRGBA) :
    List (List NpRGBA) :=
  img.set p.1 ((getRowNp img p.1).set p.2 v)

/-- `out_alpha = src_alpha + dst_alpha * (1 - src_alpha)` where `color` is
the already alpha-scaled source colour and `dst_alpha` is the destination
alpha damped by 0.75. -/
def out_alpha (color dst : RGBA) : ℚ :=
  color.a + dst.a * (3 / 4) * (1 - color.a)

/-- Numerator of the red channel of `out_rgb`. -/
def blendNumR (color dst : RGBA) : ℚ :=
  color.r * color.a + dst.r * (dst.a * (3 / 4)) * (1 - color.a)

/-- Numerator of the green channel of `out_rgb`. -/
def blendNumG (color dst : RGBA) : ℚ :=
  color.g * color.a + dst.g * (dst.a * (3 / 4)) * (1 - color.a)

/-- Numerator of the blue channel of `out_rgb`. -/
def blendNumB (color dst : RGBA) : ℚ :=
  color.b * color.a + dst.b * (dst.a * (3 / 4)) * (1 - color.a)

/-- One pixel of the compositing branch of `set_color`: `color` is the
already alpha-scaled source colour, `dst` the original image pixel; the
channel divisions use numpy semantics (0/0 = NaN, x/0 = ±inf) and the
result passes through `np.clip(..., 0, 1)`, which keeps NaN. -/
def blendPixel (color dst : RGBA) : NpRGBA :=
  { r := npClip01 (npDiv (blendNumR color dst) (out_alpha color dst)),
    g := npClip01 (npDiv (blendNumG color dst) (out_alpha color dst)),
    b := npClip01 (npDiv (blendNumB color dst) (out_alpha color dst)),
    a := npClip01 (.fin (out_alpha color dst)) }

/-- The fancy-index assignment `img[rr, cc] = f(orig[rr, cc])`: each selected
position receives `f` of the pixel the original image held there. -/
def writeAll (orig : List (List RGBA)) (f : RGBA → NpRGBA) :
    List (ℤ × ℤ) → List (List NpRGBA) → List (List NpRGBA)
  | [], out => out
  | p :: rest, out =>
      writeAll orig f rest
        (setPixNp out (p.1.toNat, p.2.toNat)
          (f (getPix orig (p.1.toNat, p.2.toNat))))

/-- Embedding of `set_color` (scalar alpha): filter the coordinates to the
image, alpha-scale the colour, then either write it directly (when every
selected pixel is zero) or alpha-composite onto the selected pixels. -/
def set_color (img : List (List RGBA)) (coords : List (ℤ × ℤ))
    (color : RGBA) (alpha : ℚ) : List (List NpRGBA) :=
  if (coords_inside_image coords (gridShape img).1 (gridShape img).2).all
      (fun p => decide (getPix img (p.1.toNat, p.2.toNat) = RGBA.zero))
  then writeAll img (fun _ => (scaleColor color alpha).toNp)
        (coords_inside_image coords (gridShape img).1 (gridShape img).2)
        (liftGrid img)
  else writeAll img (blendPixel (scaleColor color alpha))
        (coords_inside_image coords (gridShape img).1 (gridShape img).2)
        (liftGrid img)

/-
§8  Custom-frame row segmentation.  `commit_matrix` (frame.py) is not under
src — only the wire-format description in docs/reference/devices.md is — so
the emission is modelled from the spec: per row, one or more segment reports
`[row_index, start_col, end_col, rgb_triplets...]`, rows wider than the
per-report column budget split into contiguous left-to-right segments
sharing the row index; budget 24 columns for the standard class, 26 RGB
triplets (at most 80 bytes of RGB) with the custom_frame_alt capability.
-/

/-- A device RGB pixel (one byte per channel). -/
structure RGB where
  red : ℕ
  green : ℕ
  blue : ℕ
deriving DecidableEq

/-- Modelled from the spec: the per-report column budget — 24 LEDs per
segment for the standard class, up to 80 bytes of RGB (26 triplets) with
the `custom_frame_alt` capability. -/
def segment_budget (custom_frame_alt : Bool) : ℕ :=
  if custom_frame_alt then 26 else 24

/-- Modelled from the spec: split `width` columns starting at `start` into
contiguous segments of at most `budget` columns, emitted left to right; a
segment is an inclusive (start_col, end_col) pair. -/
def row_segments (budget width start : ℕ) : List (ℕ × ℕ) :=
  if width = 0 ∨ budget = 0 then []
  else if width ≤ budget then [(start, start + width - 1)]
  else (start, start + budget - 1) :: row_segments budget (width - budget) (start + budget)
termination_by width
decreasing_by omega

/-- The RGB triplets of a pixel run, 3 bytes per LED in R,G,B order. -/
def rgb_bytes (pixels : List RGB) : List ℕ :=
  (pixels.map fun p => [p.red, p.green, p.blue]).flatten

/-- Modelled from the spec: the argument payload of one row segment —
`[row_index, start_col, end_col]` followed by the RGB bytes of the covered
columns. -/
def segment_args (row : ℕ) (pixels : List RGB) (seg : ℕ × ℕ) : List ℕ :=
  row :: seg.1 :: seg.2 :: rgb_bytes ((pixels.drop seg.1).take (seg.2 + 1 - seg.1))

/-- Modelled from the spec: the reports of the rows starting at index
`row`, each row's segments emitted left to right, rows in order. -/
def commit_rows (custom_frame_alt : Bool) : ℕ → List (List RGB) → List (List ℕ)
  | _, [] => []
  | row, px :: rest =>
      (row_segments (segment_budget custom_frame_alt) px.length 0).map
          (segment_args row px)
        ++ commit_rows custom_frame_alt (row + 1) rest

/-- Modelled from the spec: `commit_matrix` emits every matrix row as one or
more segment reports. -/
def commit_matrix (matrix : List (List RGB)) (custom_frame_alt : Bool) :
    List (List ℕ) :=
  commit_rows custom_frame_alt 0 matrix

end UChroma

namespace UChroma

theorem padArgs_length (a : List Nat) : (padArgs a).length = 80 := by
  simp only [padArgs, List.length_append, List.length_take, List.length_replicate]
  omega

theorem packBody_length (r : Request) : (packBody r).length = 88 := by
  simp [packBody, padArgs_length]

theorem pack_length (r : Request) : (pack r).length = 90 := by
  simp [pack, packBody_length]

/-- Folding the XOR over an index list only depends on the bytes at those
indices. -/
theorem foldl_xor_congr (B B' : List Nat) :
    ∀ (l : List Nat) (a : Nat), (∀ i ∈ l, B.getD i 0 = B'.getD i 0) →
      l.foldl (fun crc i => crc ^^^ B.getD i 0) a
        = l.foldl (fun crc i => crc ^^^ B'.getD i 0) a
  | [], _, _ => rfl
  | i :: l, a, h => by
      simp only [List.foldl_cons]
      rw [h i (List.mem_cons_self i l)]
      exact foldl_xor_congr B B' l _ (fun j hj => h j (List.mem_cons_of_mem i hj))

/-- The index-based XOR fold equals the fold over the corresponding slice. -/
theorem foldl_xor_slice (B : List Nat) :
    ∀ (n s a : Nat), s + n ≤ B.length →
      (List.range' s n).foldl (fun crc i => crc ^^^ B.getD i 0) a
        = ((B.drop s).take n).foldl (fun crc x => crc ^^^ x) a := by
  intro n
  induction n with
  | zero => intro s a _; simp
  | succ n ih =>
      intro s a hs
      have hsB : s < B.length := by omega
      have hdrop : B.drop s = B.getD s 0 :: B.drop (s + 1) := by
        rw [List.getD_eq_getElem _ _ hsB]
        rw [List.drop_eq_getElem_cons hsB]
      rw [List.range'_succ, hdrop]
      simp only [List.foldl_cons, List.take_succ_cons]
      exact ih (s + 1) _ (by omega)

theorem pack_getD_two (r : Request) :
    (pack r).getD 2 0 = r.remaining_packets / 256 % 256 := rfl

theorem pack_getD_three (r : Request) :
    (pack r).getD 3 0 = r.remaining_packets % 256 := rfl

theorem pack_getD_reserved (r : Request) : (pack r).getD 89 0 = 0 := by
  have hlen := packBody_length r
  rw [pack, List.getD_append_right _ _ _ _ (by omega), hlen]
  rfl

theorem emit_packets_length (rs : List Request) :
    (emit_packets rs).length = rs.length := by
  simp [emit_packets]

theorem emit_packets_getD (rs : List Request) (j : ℕ) (hj : j < rs.length) :
    (emit_packets rs).getD j []
      = pack { rs.get ⟨j, hj⟩ with remaining_packets := rs.length - 1 - j } := by
  rw [List.getD_eq_getElem _ _ (by rw [emit_packets_length]; omega)]
  simp [emit_packets]

/-- C1: the report CRC is the XOR of exactly the bytes at indices 1 through
86 inclusive: it equals the XOR fold over the slice `B[1..86]`, it does not
change when bytes outside indices 1..86 change, and `pack` installs exactly
this value of the packed buffer at byte index 88. -/
theorem fast_crc_xor_of_bytes_1_to_86 (B B' : List Nat) (r : Request)
    (hB : 87 ≤ B.length)
    (hagree : ∀ i ∈ List.range' 1 86, B.getD i 0 = B'.getD i 0) :
    fast_crc B = ((B.drop 1).take 86).foldl (fun c x => c ^^^ x) 0
      ∧ fast_crc B = fast_crc B'
      ∧ (pack r).getD 88 0 = fast_crc (pack r) := by
  refine ⟨foldl_xor_slice B 86 1 0 (by omega),
          foldl_xor_congr B B' _ 0 hagree, ?_⟩
  have hlen := packBody_length r
  have hinstall : (pack r).getD 88 0 = fast_crc (packBody r) := by
    rw [pack, List.getD_append_right _ _ _ _ (by omega), hlen]
    rfl
  have hsame : fast_crc (pack r) = fast_crc (packBody r) :=
    foldl_xor_congr (pack r) (packBody r) (List.range' 1 86) 0 (by
      intro i hi
      rw [List.mem_range'_1] at hi
      rw [pack, List.getD_append _ _ _ _ (by omega)])
  rw [hinstall, hsame]

/-- C1 witness: concrete 90-byte buffers that agree on indices 1..86 but
differ at indices 0 and 89 have equal CRCs. -/
theorem fast_crc_xor_of_bytes_1_to_86_witness :
    fast_crc (List.range 90) = fast_crc (55 :: List.range' 1 89) :=
  (fast_crc_xor_of_bytes_1_to_86 (List.range 90) (55 :: List.range' 1 89)
    ⟨0xFF, 0, 2, 0, 0x81, []⟩ (by decide) (by decide)).2.1

/-- C4: a packed request is 90 bytes with status byte 0 and reserved byte 89
equal to zero, remaining packets big-endian at bytes 2-3, data size at byte 5,
command class at byte 6, command id at byte 7; a multi-packet transfer emits
the reports in order with byte pair 2-3 of the i-th report counting the
packets after it, and the final report carries remaining packets 0. -/
theorem pack_layout (r : Request) (rs : List Request) (i : ℕ)
    (hs : r.data_size < 256) (hc : r.command_class < 256)
    (hid : r.command_id < 256) (hrp : r.remaining_packets < 65536)
    (hi : i < rs.length) (hn : rs.length ≤ 65536) :
    (pack r).length = 90
      ∧ (pack r).getD 0 0 = 0
      ∧ (pack r).getD 89 0 = 0
      ∧ 256 * (pack r).getD 2 0 + (pack r).getD 3 0 = r.remaining_packets
      ∧ (pack r).getD 5 0 = r.data_size
      ∧ (pack r).getD 6 0 = r.command_class
      ∧ (pack r).getD 7 0 = r.command_id
      ∧ (emit_packets rs).length = rs.length
      ∧ (emit_packets rs).getD i []
          = pack { rs.get ⟨i, hi⟩ with remaining_packets := rs.length - 1 - i }
      ∧ 256 * ((emit_packets rs).getD i []).getD 2 0
          + ((emit_packets rs).getD i []).getD 3 0 = rs.length - 1 - i
      ∧ 256 * ((emit_packets rs).getD (rs.length - 1) []).getD 2 0
          + ((emit_packets rs).getD (rs.length - 1) []).getD 3 0 = 0 := by
  have h2 := pack_getD_two r
  have h3 := pack_getD_three r
  have h5 : (pack r).getD 5 0 = r.data_size % 256 := rfl
  have h6 : (pack r).getD 6 0 = r.command_class % 256 := rfl
  have h7 : (pack r).getD 7 0 = r.command_id % 256 := rfl
  have hlast : rs.length - 1 < rs.length := by omega
  refine ⟨pack_length r, rfl, pack_getD_reserved r, by omega,
          by omega, by omega, by omega, emit_packets_length rs,
          emit_packets_getD rs i hi, ?_, ?_⟩
  · rw [emit_packets_getD rs i hi, pack_getD_two, pack_getD_three]
    simp only
    omega
  · rw [emit_packets_getD rs (rs.length - 1) hlast, pack_getD_two,
        pack_getD_three]
    simp only
    omega

/-- C4 witness: the theorem applied to a concrete two-packet transfer. -/
theorem pack_layout_witness :
    (pack ⟨0xFF, 0, 2, 0, 0x81, []⟩).length = 90 :=
  (pack_layout ⟨0xFF, 0, 2, 0, 0x81, []⟩
    [⟨0xFF, 0, 2, 0, 0x81, []⟩, ⟨0x3F, 0, 4, 3, 10, [6, 255, 0, 0]⟩] 0
    (by decide) (by decide) (by decide) (by decide) (by decide) (by decide)).1

/-- C2: the registry maps the eight universal effect names to exactly the
tabulated (legacy id, extended id) pairs; `get_id` selects the extended
column exactly when the profile's extended-effect flag is set; resolution
fails with UNSUPPORTED (status 0x05) precisely when the selected column is
absent. -/
theorem effects_registry_table (p : ProtocolConfig) (name : String)
    (e : EffectDef) (hattr : Effects.attr name = some e) :
    (Effects.get_id "disable" false = some 0x00
        ∧ Effects.get_id "disable" true = some 0x00
      ∧ Effects.get_id "static" false = some 0x06
        ∧ Effects.get_id "static" true = some 0x01
      ∧ Effects.get_id "wave" false = some 0x01
        ∧ Effects.get_id "wave" true = some 0x04
      ∧ Effects.get_id "reactive" false = some 0x02
        ∧ Effects.get_id "reactive" true = some 0x05
      ∧ Effects.get_id "breathe" false = some 0x03
        ∧ Effects.get_id "breathe" true = some 0x02
      ∧ Effects.get_id "spectrum" false = some 0x04
        ∧ Effects.get_id "spectrum" true = some 0x03
      ∧ Effects.get_id "starlight" false = some 0x19
        ∧ Effects.get_id "starlight" true = some 0x07
      ∧ Effects.get_id "custom_frame" false = some 0x05
        ∧ Effects.get_id "custom_frame" true = some 0x08)
      ∧ Effects.get_id name p.uses_extended_fx
          = (if p.uses_extended_fx then e.extended_id else e.legacy_id)
      ∧ (set_effect_id p name = .error 0x05
          ↔ Effects.get_id name p.uses_extended_fx = none)
      ∧ (∀ i, set_effect_id p name = .ok i
          ↔ Effects.get_id name p.uses_extended_fx = some i)
      ∧ Effects.supports_protocol name p.uses_extended_fx
          = (Effects.get_id name p.uses_extended_fx).isSome := by
  refine ⟨by decide, ?_, ?_, ?_, rfl⟩
  · simp [Effects.get_id, hattr]
  · cases h : Effects.get_id name p.uses_extended_fx <;>
      simp [set_effect_id, h]
  · intro i
    cases h : Effects.get_id name p.uses_extended_fx <;>
      simp [set_effect_id, h]

/-- C2 witness: dispatching `breathe` on the Extended profile selects the
extended column of its registry entry. -/
theorem effects_registry_table_witness :
    Effects.get_id "breathe" ProtocolConfig.EXTENDED.uses_extended_fx
      = (if ProtocolConfig.EXTENDED.uses_extended_fx
          then Effects.BREATHE.extended_id else Effects.BREATHE.legacy_id) :=
  (effects_registry_table ProtocolConfig.EXTENDED "breathe" Effects.BREATHE
    (by decide)).2.1

/-- C3 counterexample: the code predefines exactly four protocol
configurations, none of which carries transaction id 0x08, so the predefined
profiles do not include a Special (0x08, false) entry. -/
theorem no_predefined_special_config :
    (predefined_configs.map fun c => (c.transaction_id, c.uses_extended_fx))
        = [(0xFF, false), (0x3F, true), (0x1F, true), (0x9F, true)]
      ∧ ∀ c ∈ predefined_configs, c.transaction_id ≠ 0x08 := by
  decide

/-- C3 (amended): the predefined profiles carry exactly the four pairs
Legacy (0xFF, false), Extended (0x3F, true), Modern (0x1F, true),
WirelessKeyboard (0x9F, true); quirk resolution always returns one of these
predefined profiles; the Special id 0x08 appears only in the `get_report`
transaction-id fallback, which resolves every device to one of the five ids
0xFF, 0x3F, 0x1F, 0x9F, 0x08. -/
theorem protocol_profiles (q : Quirks) :
    (predefined_configs.map fun c => (c.transaction_id, c.uses_extended_fx))
        = [(0xFF, false), (0x3F, true), (0x1F, true), (0x9F, true)]
      ∧ get_protocol_from_quirks q ∈ predefined_configs
      ∧ ((get_protocol_from_quirks q).transaction_id,
          (get_protocol_from_quirks q).uses_extended_fx)
          ∈ [(0xFF, false), (0x3F, true), (0x1F, true), (0x9F, true)]
      ∧ get_report_transaction_id q none ∈ [0xFF, 0x3F, 0x1F, 0x9F, 0x08] := by
  obtain ⟨a, b, c, d⟩ := q
  cases a <;> cases b <;> cases c <;> cases d <;>
    exact ⟨rfl,
      by first
        | exact List.Mem.head _
        | exact List.Mem.tail _ (List.Mem.head _)
        | exact List.Mem.tail _ (List.Mem.tail _ (List.Mem.head _))
        | exact List.Mem.tail _ (List.Mem.tail _ (List.Mem.tail _ (List.Mem.head _))),
      by decide, by decide⟩

/-- C3 witness: a device with only the 0x08 quirk resolves to one of the five
transaction ids. -/
theorem protocol_profiles_witness :
    get_report_transaction_id ⟨false, false, false, true⟩ none
      ∈ [0xFF, 0x3F, 0x1F, 0x9F, 0x08] :=
  (protocol_profiles ⟨false, false, false, true⟩).2.2.2

/-- C6: with system control supported, a nonzero RPM below `min_manual_rpm`
or above `max_rpm` is rejected with InvalidArgument and no fan command is
issued (state unchanged); an RPM inside the band, or 0 meaning automatic,
issues the SET_FAN_MODE command with the RPM encoded big-endian. -/
theorem set_fan_rpm_limits (limits : FanLimits) (rpm : ℤ)
    (fan2_rpm : Option ℤ) :
    (rpm ≠ 0 → rpm < limits.min_manual_rpm →
        set_fan_rpm true limits rpm fan2_rpm = .invalidArgument
          ∧ fan_commands (set_fan_rpm true limits rpm fan2_rpm) = [])
      ∧ (rpm ≠ 0 → limits.max_rpm < rpm →
        set_fan_rpm true limits rpm fan2_rpm = .invalidArgument
          ∧ fan_commands (set_fan_rpm true limits rpm fan2_rpm) = [])
      ∧ (limits.min_manual_rpm ≤ rpm → rpm ≤ limits.max_rpm → fan2_rpm = none →
        set_fan_rpm true limits rpm fan2_rpm
          = .command [rpm / 256 % 256, rpm % 256])
      ∧ (rpm = 0 → fan2_rpm = none →
        set_fan_rpm true limits rpm fan2_rpm = .command [0, 0]) := by
  refine ⟨fun h0 hlt => ?_, fun h0 hgt => ?_, fun h1 h2 hf => ?_,
          fun h0 hf => ?_⟩
  · have h : set_fan_rpm true limits rpm fan2_rpm = .invalidArgument := by
      simp [set_fan_rpm, h0, hlt]
    exact ⟨h, by rw [h]; rfl⟩
  · by_cases hc : rpm < limits.min_manual_rpm
    · have h : set_fan_rpm true limits rpm fan2_rpm = .invalidArgument := by
        simp [set_fan_rpm, h0, hc]
      exact ⟨h, by rw [h]; rfl⟩
    · have h : set_fan_rpm true limits rpm fan2_rpm = .invalidArgument := by
        simp [set_fan_rpm, h0, hc, hgt]
      exact ⟨h, by rw [h]; rfl⟩
  · have hnlt : ¬rpm < limits.min_manual_rpm := not_lt.mpr h1
    have hngt : ¬limits.max_rpm < rpm := not_lt.mpr h2
    simp [set_fan_rpm, hnlt, hngt, hf]
  · subst h0
    simp [set_fan_rpm, hf]

/-- C6 witness: on default limits, 1000 RPM (below the 3500 minimum) is
rejected without issuing any command. -/
theorem set_fan_rpm_limits_witness :
    set_fan_rpm true { max_rpm := 5000 } 1000 none = .invalidArgument
      ∧ fan_commands (set_fan_rpm true { max_rpm := 5000 } 1000 none) = [] :=
  (set_fan_rpm_limits { max_rpm := 5000 } 1000 none).1 (by decide) (by decide)

/-- C7 counterexample: the thermal check is stateless with the single strict
threshold 95 °C, so at 92 °C — which has not yet fallen below 90 °C — a
manual request for 3500 RPM proceeds normally instead of remaining
refused. -/
theorem thermal_no_hysteresis_cex :
    check_thermal_safety 92 40 = true
      ∧ manual_fan_request 92 40 { max_rpm := 5000 } 3500 none
          = .command [13, 172]
      ∧ ¬((92 : ℚ) < 90) := by
  have hsafe : check_thermal_safety 92 40 = true := by
    norm_num [check_thermal_safety, THERMAL_CRITICAL]
  refine ⟨hsafe, ?_, by norm_num⟩
  rw [manual_fan_request, if_pos hsafe]
  decide

/-- C7 (amended): whenever any reading exceeds 95 °C a manual fan-control
request forces `set_fan_auto()` instead of applying the requested RPM; the
check is stateless with 95 °C as its only threshold, so whenever all readings
are at most 95 °C (in particular at 88 °C) the same call proceeds
normally — there is no 90 °C hysteresis band. -/
theorem thermal_override (cpu gpu : ℚ) (limits : FanLimits) (rpm : ℤ)
    (fan2_rpm : Option ℤ) :
    ((THERMAL_CRITICAL < cpu ∨ THERMAL_CRITICAL < gpu) →
        manual_fan_request cpu gpu limits rpm fan2_rpm = .forcedAuto)
      ∧ (cpu ≤ THERMAL_CRITICAL → gpu ≤ THERMAL_CRITICAL →
        manual_fan_request cpu gpu limits rpm fan2_rpm
          = set_fan_rpm true limits rpm fan2_rpm)
      ∧ (check_thermal_safety cpu gpu = false
          ↔ THERMAL_CRITICAL < cpu ∨ THERMAL_CRITICAL < gpu) := by
  refine ⟨fun h => ?_, fun h1 h2 => ?_, ?_⟩
  · simp [manual_fan_request, check_thermal_safety, h]
  · have h : ¬(THERMAL_CRITICAL < cpu ∨ THERMAL_CRITICAL < gpu) := by
      push_neg
      exact ⟨h1, h2⟩
    simp [manual_fan_request, check_thermal_safety, h]
  · constructor
    · intro h
      by_contra hc
      simp [check_thermal_safety, hc] at h
    · intro h
      simp [check_thermal_safety, h]

/-- C7 witness: at CPU = 96 °C the manual request is converted to
`set_fan_auto()`. -/
theorem thermal_override_witness :
    manual_fan_request 96 40 { max_rpm := 5000 } 3500 none = .forcedAuto :=
  (thermal_override 96 40 { max_rpm := 5000 } 3500 none).1
    (Or.inl (by norm_num [THERMAL_CRITICAL]))

/-- C10: the idle-timeout setter clamps every integer input into [60, 900] —
values below 60 become 60, values above 900 become 900, in-range values pass
through — and the issued SET_IDLE_TIME bytes encode exactly the clamped value
big-endian; no input is rejected. -/
theorem idle_timeout_clamp (seconds : ℤ) :
    60 ≤ clamp_idle seconds
      ∧ clamp_idle seconds ≤ 900
      ∧ (seconds < 60 → clamp_idle seconds = 60)
      ∧ (900 < seconds → clamp_idle seconds = 900)
      ∧ (60 ≤ seconds → seconds ≤ 900 → clamp_idle seconds = seconds)
      ∧ 256 * (idle_timeout_set seconds).1 + (idle_timeout_set seconds).2
          = clamp_idle seconds := by
  have h60 : 60 ≤ clamp_idle seconds := le_max_left _ _
  have h900 : clamp_idle seconds ≤ 900 := by
    rw [clamp_idle]
    rcases le_total 900 seconds with h | h
    · rw [min_eq_left h]
      exact max_le (by norm_num) le_rfl
    · rw [min_eq_right h]
      exact max_le (by norm_num) h
  refine ⟨h60, h900, fun h => ?_, fun h => ?_, fun ha hb => ?_, ?_⟩
  · rw [clamp_idle, max_eq_left]
    exact le_trans (min_le_right _ _) (by omega)
  · rw [clamp_idle, min_eq_left (by omega), max_eq_right (by omega)]
  · rw [clamp_idle, min_eq_right hb, max_eq_right ha]
  · rw [idle_timeout_set]
    omega

/-- C10 witness: an input of 30 seconds is clamped up to 60. -/
theorem idle_timeout_clamp_witness : clamp_idle 30 = 60 :=
  (idle_timeout_clamp 30).2.2.1 (by decide)

theorem pyGet_of_nonneg {α : Type} (xs : List α) (i : ℤ) (h0 : 0 ≤ i)
    (hlt : i.toNat < xs.length) :
    pyGet xs i = some (xs.get ⟨i.toNat, hlt⟩) := by
  simp only [pyGet, if_pos h0]
  exact List.get?_eq_get hlt

theorem pyGet_neg_one {α : Type} (xs : List α) (h : 1 ≤ xs.length) :
    pyGet xs (-1) = xs.getLast? := by
  have h1 : ¬(0 : ℤ) ≤ -1 := by norm_num
  have h2 : ((-(-1 : ℤ)).toNat ≤ xs.length) := by omega
  simp only [pyGet, if_neg h1, if_pos h2]
  rw [List.getLast?_eq_getElem?]
  norm_num

theorem plasmaIdx_range {α : Type} (gradient : List α)
    (width height duration : ℝ) (row col : ℕ) :
    -1 ≤ plasmaIdx gradient width height duration row col
      ∧ plasmaIdx gradient width height duration row col
          ≤ (gradient.length : ℤ) - 1 := by
  have hs1 : -1 ≤ Real.sin (Real.pi * plasmaVal width height duration row col) :=
    Real.neg_one_le_sin _
  have hs2 : Real.sin (Real.pi * plasmaVal width height duration row col) ≤ 1 :=
    Real.sin_le_one _
  have hn0 : (0 : ℝ) ≤ (gradient.length : ℝ) := Nat.cast_nonneg _
  have hpos0 : 0 ≤ plasmaPos (gradient.length : ℝ)
      (plasmaVal width height duration row col) := by
    rw [plasmaPos]
    apply mul_nonneg hn0
    linarith
  have hposn : plasmaPos (gradient.length : ℝ)
      (plasmaVal width height duration row col) ≤ (gradient.length : ℝ) := by
    rw [plasmaPos]
    have h1 : (1 + Real.sin (Real.pi * plasmaVal width height duration row col)) / 2
        ≤ 1 := by linarith
    have h2 := mul_le_mul_of_nonneg_left h1 hn0
    linarith
  have htr : cIntTrunc (plasmaPos (gradient.length : ℝ)
      (plasmaVal width height duration row col))
      = ⌊plasmaPos (gradient.length : ℝ)
          (plasmaVal width height duration row col)⌋ := if_pos hpos0
  have hf0 : (0 : ℤ) ≤ ⌊plasmaPos (gradient.length : ℝ)
      (plasmaVal width height duration row col)⌋ := Int.floor_nonneg.mpr hpos0
  have hfn : ⌊plasmaPos (gradient.length : ℝ)
      (plasmaVal width height duration row col)⌋ ≤ (gradient.length : ℤ) := by
    have h1 := Int.floor_le_floor hposn
    rwa [Int.floor_natCast] at h1
  constructor
  · rw [plasmaIdx, htr]
    omega
  · rw [plasmaIdx, htr]
    omega

theorem plasmaCell_mem {α : Type} (gradient : List α)
    (width height duration : ℝ) (row col : ℕ) (hg : 1 ≤ gradient.length) :
    ∃ c ∈ gradient, plasmaCell gradient width height duration row col = some c := by
  obtain ⟨hlo, hhi⟩ := plasmaIdx_range gradient width height duration row col
  by_cases h0 : 0 ≤ plasmaIdx gradient width height duration row col
  · have hlt : (plasmaIdx gradient width height duration row col).toNat
        < gradient.length := by omega
    refine ⟨gradient.get ⟨_, hlt⟩, List.get_mem _ _ _, ?_⟩
    simp only [plasmaCell]
    exact pyGet_of_nonneg gradient _ h0 hlt
  · have hi : plasmaIdx gradient width height duration row col = -1 := by omega
    have hlt : gradient.length - 1 < gradient.length := by omega
    refine ⟨gradient.get ⟨gradient.length - 1, hlt⟩, List.get_mem _ _ _, ?_⟩
    simp only [plasmaCell, hi]
    rw [pyGet_neg_one gradient hg, List.getLast?_eq_getElem?,
        ← List.get?_eq_getElem?]
    exact List.get?_eq_get hlt

/-- C8: for a nonempty gradient, `draw_plasma` is total on the covered
matrix: the computed gradient index `int(pos) - 1` always lies in
[-1, len(gradient) - 1], every cell is written a value taken from the
gradient (so the indexing never goes out of bounds), and index -1 selects
the last gradient entry. -/
theorem draw_plasma_safe {α : Type} (gradient : List α)
    (width height duration : ℝ) (H W : ℕ) (hg : 1 ≤ gradient.length) :
    (∀ row col, -1 ≤ plasmaIdx gradient width height duration row col
        ∧ plasmaIdx gradient width height duration row col
            ≤ (gradient.length : ℤ) - 1)
      ∧ (draw_plasma gradient width height duration H W).length = H
      ∧ (∀ r ∈ draw_plasma gradient width height duration H W, r.length = W)
      ∧ (∀ r ∈ draw_plasma gradient width height duration H W, ∀ cell ∈ r,
          ∃ c ∈ gradient, cell = some c)
      ∧ (∀ row col, plasmaIdx gradient width height duration row col = -1 →
          plasmaCell gradient width height duration row col
            = gradient.getLast?) := by
  refine ⟨fun row col => plasmaIdx_range gradient width height duration row col,
          by simp [draw_plasma], ?_, ?_, ?_⟩
  · intro r hr
    simp only [draw_plasma, List.mem_map] at hr
    obtain ⟨row, _, rfl⟩ := hr
    simp
  · intro r hr cell hc
    simp only [draw_plasma, List.mem_map] at hr
    obtain ⟨row, _, rfl⟩ := hr
    simp only [List.mem_map] at hc
    obtain ⟨col, _, rfl⟩ := hc
    exact plasmaCell_mem gradient width height duration row col hg
  · intro row col h
    simp only [plasmaCell, h]
    exact pyGet_neg_one gradient hg

/-- C8 witness: on the one-entry gradient the index at cell (3, 5) of a
6×22 surface is at least -1. -/
theorem draw_plasma_safe_witness :
    -1 ≤ plasmaIdx ([0] : List ℕ) 22 6 0 3 5 :=
  ((draw_plasma_safe ([0] : List ℕ) 22 6 0 6 22 (by decide)).1 3 5).1

theorem coords_inside_image_mem (coords : List (ℤ × ℤ)) (hgt wid : ℕ)
    (p : ℤ × ℤ) :
    p ∈ coords_inside_image coords hgt wid
      ↔ p ∈ coords ∧ 0 ≤ p.1 ∧ p.1 < (hgt : ℤ) ∧ 0 ≤ p.2 ∧ p.2 < (wid : ℤ) := by
  simp [coords_inside_image, List.mem_filter, and_assoc]

theorem getPixNp_setPixNp_ne (img : List (List NpRGBA)) (q p : ℕ × ℕ)
    (v : NpRGBA) (h : q ≠ p) :
    getPixNp (setPixNp img q v) p = getPixNp img p := by
  obtain ⟨q1, q2⟩ := q
  obtain ⟨p1, p2⟩ := p
  by_cases hr : q1 = p1
  · subst hr
    have hc : q2 ≠ p2 := fun hc => h (by rw [hc])
    simp only [getPixNp, setPixNp, getRowNp, List.getElem?_set_self']
    cases himg : img[q1]? with
    | none => simp
    | some row => simp [List.getElem?_set_ne hc]
  · simp only [getPixNp, setPixNp, getRowNp]
    rw [List.getElem?_set_ne hr]

theorem getPixNp_setPixNp_self (img : List (List NpRGBA)) (p : ℕ × ℕ)
    (v : NpRGBA) :
    getPixNp (setPixNp img p v) p = v
      ∨ getPixNp (setPixNp img p v) p = getPixNp img p := by
  obtain ⟨p1, p2⟩ := p
  simp only [getPixNp, setPixNp, getRowNp, List.getElem?_set_self']
  cases himg : img[p1]? with
  | none => right; simp
  | some row =>
      simp only [Option.map_eq_map, Option.map_some', Option.getD_some,
        List.getElem?_set_self']
      cases hrow : row[p2]? with
      | none => right; simp [List.getElem?_set_self', hrow]
      | some x => left; simp [List.getElem?_set_self', hrow]

theorem getPixNp_liftGrid (img : List (List RGBA)) (p : ℕ × ℕ) :
    getPixNp (liftGrid img) p = (getPix img p).toNp := by
  obtain ⟨p1, p2⟩ := p
  simp only [getPixNp, getPix, getRowNp, getRow, liftGrid, List.getElem?_map]
  cases himg : img[p1]? with
  | none => simp
  | some row =>
      simp only [Option.map_some', Option.getD_some, List.getElem?_map]
      cases hrow : row[p2]? with
      | none => simp
      | some x => simp

theorem getPixNp_writeAll_unchanged (orig : List (List RGBA))
    (f : RGBA → NpRGBA) :
    ∀ (ps : List (ℤ × ℤ)) (out : List (List NpRGBA)) (p : ℕ × ℕ),
      (∀ q ∈ ps, (q.1.toNat, q.2.toNat) ≠ p) →
      getPixNp (writeAll orig f ps out) p = getPixNp out p
  | [], _, _, _ => rfl
  | q :: rest, out, p, h => by
      rw [writeAll]
      rw [getPixNp_writeAll_unchanged orig f rest _ p
            (fun w hw => h w (List.mem_cons_of_mem q hw))]
      exact getPixNp_setPixNp_ne out _ p _ (h q (List.mem_cons_self q rest))

theorem getPixNp_writeAll (orig : List (List RGBA)) (f : RGBA → NpRGBA) :
    ∀ (ps : List (ℤ × ℤ)) (out : List (List NpRGBA)) (p : ℕ × ℕ),
      getPixNp (writeAll orig f ps out) p = getPixNp out p
        ∨ getPixNp (writeAll orig f ps out) p = f (getPix orig p)
  | [], _, _ => Or.inl rfl
  | q :: rest, out, p => by
      rw [writeAll]
      rcases getPixNp_writeAll orig f rest
          (setPixNp out (q.1.toNat, q.2.toNat)
            (f (getPix orig (q.1.toNat, q.2.toNat)))) p with h | h
      · by_cases hq : ((q.1.toNat : ℕ), (q.2.toNat : ℕ)) = p
        · subst hq
          rcases getPixNp_setPixNp_self out (q.1.toNat, q.2.toNat)
              (f (getPix orig (q.1.toNat, q.2.toNat))) with hv | hsame
          · exact Or.inr (h.trans hv)
          · exact Or.inl (h.trans hsame)
        · exact Or.inl (h.trans (getPixNp_setPixNp_ne out _ p _ hq))
      · exact Or.inr h

theorem clip01_bounds (x : ℚ) : 0 ≤ clip01 x ∧ clip01 x ≤ 1 := by
  refine ⟨le_max_left 0 _, ?_⟩
  rw [clip01]
  rcases le_total x 1 with h | h
  · rw [min_eq_right h]
    exact max_le (by norm_num) h
  · rw [min_eq_left h]
    exact max_le (by norm_num) le_rfl

theorem npClip01_clamped (v : NpFloat) :
    npClip01 v = NpFloat.nan
      ∨ ∃ q, npClip01 v = NpFloat.fin q ∧ 0 ≤ q ∧ q ≤ 1 := by
  cases v with
  | fin q => exact Or.inr ⟨clip01 q, rfl, (clip01_bounds q).1, (clip01_bounds q).2⟩
  | pinf => exact Or.inr ⟨1, rfl, by norm_num, le_rfl⟩
  | ninf => exact Or.inr ⟨0, rfl, le_rfl, by norm_num⟩
  | nan => exact Or.inl rfl

theorem npClip01_nan_iff (v : NpFloat) :
    npClip01 v = NpFloat.nan ↔ v = NpFloat.nan := by
  cases v <;> simp [npClip01]

theorem npDiv_nan_iff (x y : ℚ) :
    npDiv x y = NpFloat.nan ↔ y = 0 ∧ x = 0 := by
  rw [npDiv]
  split_ifs with h1 h2 h3
  · simp [h1]
  · simp only [not_not] at h1
    simp [h1]
    exact ne_of_gt h2
  · simp only [not_not] at h1
    simp [h1]
    exact ne_of_lt h3
  · simp only [not_not] at h1
    have hx : x = 0 := le_antisymm (not_lt.mp h2) (not_lt.mp h3)
    simp [h1, hx]

theorem npDiv_of_ne (x y : ℚ) (h : y ≠ 0) :
    npDiv x y = NpFloat.fin (x / y) := by
  rw [npDiv, if_pos h]

theorem set_color_unchanged (img : List (List RGBA)) (coords : List (ℤ × ℤ))
    (color : RGBA) (alpha : ℚ) (p : ℕ × ℕ)
    (hp : ∀ q ∈ coords_inside_image coords (gridShape img).1 (gridShape img).2,
        (q.1.toNat, q.2.toNat) ≠ p) :
    getPixNp (set_color img coords color alpha) p = (getPix img p).toNp := by
  rw [set_color]
  split_ifs <;>
    (rw [getPixNp_writeAll_unchanged img _ _ (liftGrid img) p hp]
     exact getPixNp_liftGrid img p)

/-- C9 counterexample: compositing a zero-alpha colour onto a 1×1 image whose
single pixel has nonzero RGB but zero alpha (so the not-all-zero branch runs
and `out_alpha = 0`) stores numpy's 0/0 = NaN in the colour channels —
`np.clip` does not bring NaN into [0, 1]. -/
theorem set_color_nan_cex :
    (getPixNp (set_color [[⟨1, 1, 1, 0⟩]] [(0, 0)] ⟨1, 1, 1, 0⟩ 1) (0, 0)).r
        = NpFloat.nan
      ∧ ∀ q : ℚ,
          (getPixNp (set_color [[⟨1, 1, 1, 0⟩]] [(0, 0)] ⟨1, 1, 1, 0⟩ 1)
            (0, 0)).r ≠ NpFloat.fin q := by
  have hr : (getPixNp (set_color [[⟨1, 1, 1, 0⟩]] [(0, 0)] ⟨1, 1, 1, 0⟩ 1)
      (0, 0)).r = NpFloat.nan := by
    have hoa : out_alpha (scaleColor ⟨1, 1, 1, 0⟩ 1) ⟨1, 1, 1, 0⟩ = 0 := by
      norm_num [out_alpha, scaleColor]
    have hnum : blendNumR (scaleColor ⟨1, 1, 1, 0⟩ 1) ⟨1, 1, 1, 0⟩ = 0 := by
      norm_num [blendNumR, scaleColor]
    have hblend : (blendPixel (scaleColor ⟨1, 1, 1, 0⟩ 1) ⟨1, 1, 1, 0⟩).r
        = NpFloat.nan := by
      show npClip01 (npDiv (blendNumR (scaleColor ⟨1, 1, 1, 0⟩ 1) ⟨1, 1, 1, 0⟩)
        (out_alpha (scaleColor ⟨1, 1, 1, 0⟩ 1) ⟨1, 1, 1, 0⟩)) = NpFloat.nan
      rw [npClip01_nan_iff, npDiv_nan_iff]
      exact ⟨hoa, hnum⟩
    have hinside : coords_inside_image [((0 : ℤ), (0 : ℤ))]
        (gridShape [[(⟨1, 1, 1, 0⟩ : RGBA)]]).1
        (gridShape [[(⟨1, 1, 1, 0⟩ : RGBA)]]).2 = [(0, 0)] := by
      decide
    have hall : ((coords_inside_image [((0 : ℤ), (0 : ℤ))]
        (gridShape [[(⟨1, 1, 1, 0⟩ : RGBA)]]).1
        (gridShape [[(⟨1, 1, 1, 0⟩ : RGBA)]]).2).all
          (fun p => decide (getPix [[(⟨1, 1, 1, 0⟩ : RGBA)]]
            (p.1.toNat, p.2.toNat) = RGBA.zero))) = false := by
      rw [hinside]
      simp only [List.all_cons, List.all_nil, Bool.and_true,
        decide_eq_false_iff_not]
      intro hcontra
      have : (1 : ℚ) = 0 := congrArg RGBA.r hcontra
      norm_num at this
    rw [set_color, if_neg (by rw [hall]; exact Bool.false_ne_true), hinside]
    rw [writeAll, writeAll]
    have hz : getPix [[(⟨1, 1, 1, 0⟩ : RGBA)]]
        (((0 : ℤ)).toNat, ((0 : ℤ)).toNat) = ⟨1, 1, 1, 0⟩ := rfl
    rw [hz]
    show (getPixNp (setPixNp (liftGrid [[(⟨1, 1, 1, 0⟩ : RGBA)]]) (0, 0)
        (blendPixel (scaleColor ⟨1, 1, 1, 0⟩ 1) ⟨1, 1, 1, 0⟩)) (0, 0)).r
      = NpFloat.nan
    have hgrid : getPixNp (setPixNp (liftGrid [[(⟨1, 1, 1, 0⟩ : RGBA)]]) (0, 0)
        (blendPixel (scaleColor ⟨1, 1, 1, 0⟩ 1) ⟨1, 1, 1, 0⟩)) (0, 0)
        = blendPixel (scaleColor ⟨1, 1, 1, 0⟩ 1) ⟨1, 1, 1, 0⟩ := by
      simp [liftGrid, setPixNp, getPixNp, getRowNp]
    rw [hgrid, hblend]
  exact ⟨hr, fun q h => NpFloat.noConfusion (hr ▸ h)⟩

/-- C9 (amended): `coords_inside_image` keeps exactly the coordinate pairs
inside the image shape; `set_color` leaves every cell not targeted by a kept
coordinate unchanged — in particular out-of-bounds coordinates are silently
dropped and nothing outside the image is ever written.  In the compositing
branch every stored channel is either a value clamped into [0, 1] or NaN:
whenever `out_alpha ≠ 0` the channels are exactly the clipped quotients (all
in [0, 1]), and a channel is NaN precisely when `out_alpha = 0` and its
numerator is 0 (numpy 0/0), since `np.clip` passes NaN through. -/
theorem set_color_safe (img : List (List RGBA)) (coords : List (ℤ × ℤ))
    (color : RGBA) (alpha : ℚ) :
    (∀ p : ℤ × ℤ,
        p ∈ coords_inside_image coords (gridShape img).1 (gridShape img).2
          ↔ p ∈ coords ∧ 0 ≤ p.1 ∧ p.1 < ((gridShape img).1 : ℤ)
              ∧ 0 ≤ p.2 ∧ p.2 < ((gridShape img).2 : ℤ))
      ∧ (∀ p : ℕ × ℕ,
          (∀ q ∈ coords_inside_image coords (gridShape img).1 (gridShape img).2,
              (q.1.toNat, q.2.toNat) ≠ p) →
          getPixNp (set_color img coords color alpha) p = (getPix img p).toNp)
      ∧ (∀ p : ℕ × ℕ, (gridShape img).1 ≤ p.1 ∨ (gridShape img).2 ≤ p.2 →
          getPixNp (set_color img coords color alpha) p = (getPix img p).toNp)
      ∧ (((coords_inside_image coords (gridShape img).1 (gridShape img).2).all
            fun q => decide (getPix img (q.1.toNat, q.2.toNat) = RGBA.zero))
            = false →
          ∀ p : ℕ × ℕ,
            getPixNp (set_color img coords color alpha) p = (getPix img p).toNp
              ∨ (((getPixNp (set_color img coords color alpha) p).r = NpFloat.nan
                    ∨ ∃ q, (getPixNp (set_color img coords color alpha) p).r
                        = NpFloat.fin q ∧ 0 ≤ q ∧ q ≤ 1)
                  ∧ ((getPixNp (set_color img coords color alpha) p).g = NpFloat.nan
                    ∨ ∃ q, (getPixNp (set_color img coords color alpha) p).g
                        = NpFloat.fin q ∧ 0 ≤ q ∧ q ≤ 1)
                  ∧ ((getPixNp (set_color img coords color alpha) p).b = NpFloat.nan
                    ∨ ∃ q, (getPixNp (set_color img coords color alpha) p).b
                        = NpFloat.fin q ∧ 0 ≤ q ∧ q ≤ 1)
                  ∧ ((getPixNp (set_color img coords color alpha) p).a = NpFloat.nan
                    ∨ ∃ q, (getPixNp (set_color img coords color alpha) p).a
                        = NpFloat.fin q ∧ 0 ≤ q ∧ q ≤ 1)))
      ∧ (∀ c d : RGBA, out_alpha c d ≠ 0 →
          (blendPixel c d).r = NpFloat.fin (clip01 (blendNumR c d / out_alpha c d))
            ∧ (blendPixel c d).g = NpFloat.fin (clip01 (blendNumG c d / out_alpha c d))
            ∧ (blendPixel c d).b = NpFloat.fin (clip01 (blendNumB c d / out_alpha c d))
            ∧ (blendPixel c d).a = NpFloat.fin (clip01 (out_alpha c d)))
      ∧ (∀ c d : RGBA,
          (blendPixel c d).r = NpFloat.nan
            ↔ out_alpha c d = 0 ∧ blendNumR c d = 0) := by
  refine ⟨fun p => coords_inside_image_mem coords _ _ p,
          fun p hp => set_color_unchanged img coords color alpha p hp,
          ?_, ?_, ?_, ?_⟩
  · intro p hp
    apply set_color_unchanged
    intro q hqmem
    rw [coords_inside_image_mem] at hqmem
    obtain ⟨-, h1, h2, h3, h4⟩ := hqmem
    intro hcontra
    have e1 : q.1.toNat = p.1 := congrArg Prod.fst hcontra
    have e2 : q.2.toNat = p.2 := congrArg Prod.snd hcontra
    rcases hp with hbig | hbig
    · omega
    · omega
  · intro hz p
    have hz' : ¬((coords_inside_image coords (gridShape img).1
        (gridShape img).2).all
          (fun q => decide (getPix img (q.1.toNat, q.2.toNat) = RGBA.zero))
        = true) := by
      rw [hz]
      simp
    rw [set_color, if_neg hz']
    rcases getPixNp_writeAll img (blendPixel (scaleColor color alpha))
        (coords_inside_image coords (gridShape img).1 (gridShape img).2)
        (liftGrid img) p with h | h
    · exact Or.inl (h.trans (getPixNp_liftGrid img p))
    · right
      rw [h]
      exact ⟨npClip01_clamped (npDiv (blendNumR (scaleColor color alpha)
                (getPix img p)) (out_alpha (scaleColor color alpha) (getPix img p))),
             npClip01_clamped (npDiv (blendNumG (scaleColor color alpha)
                (getPix img p)) (out_alpha (scaleColor color alpha) (getPix img p))),
             npClip01_clamped (npDiv (blendNumB (scaleColor color alpha)
                (getPix img p)) (out_alpha (scaleColor color alpha) (getPix img p))),
             npClip01_clamped (NpFloat.fin
                (out_alpha (scaleColor color alpha) (getPix img p)))⟩
  · intro c d h
    exact ⟨by rw [show (blendPixel c d).r = npClip01 (npDiv (blendNumR c d)
              (out_alpha c d)) from rfl, npDiv_of_ne _ _ h]; rfl,
           by rw [show (blendPixel c d).g = npClip01 (npDiv (blendNumG c d)
              (out_alpha c d)) from rfl, npDiv_of_ne _ _ h]; rfl,
           by rw [show (blendPixel c d).b = npClip01 (npDiv (blendNumB c d)
              (out_alpha c d)) from rfl, npDiv_of_ne _ _ h]; rfl,
           rfl⟩
  · intro c d
    rw [show (blendPixel c d).r = npClip01 (npDiv (blendNumR c d)
          (out_alpha c d)) from rfl, npClip01_nan_iff, npDiv_nan_iff]

/-- C9 witness: a cell outside the 1×1 image is untouched even when an
out-of-bounds coordinate was requested. -/
theorem set_color_safe_witness :
    getPixNp (set_color [[⟨1, 0, 0, 1⟩]] [(0, 0), (5, 7)] ⟨0, 1, 0, 1⟩ 1) (3, 3)
      = (getPix [[⟨1, 0, 0, 1⟩]] (3, 3)).toNp :=
  (set_color_safe [[⟨1, 0, 0, 1⟩]] [(0, 0), (5, 7)] ⟨0, 1, 0, 1⟩ 1).2.2.1
    (3, 3) (Or.inl (by decide))

theorem range'_append_nat (s m n : ℕ) :
    List.range' s m ++ List.range' (s + m) n = List.range' s (m + n) := by
  have h := List.range'_append s m n 1
  simp only [one_mul] at h
  rw [Nat.add_comm m n]
  exact h

/-- The column ranges of the emitted segments concatenate, in emission
order, to the whole row: coverage, contiguity and left-to-right order. -/
theorem row_segments_cover (budget : ℕ) (hb : 1 ≤ budget) :
    ∀ (width start : ℕ),
      ((row_segments budget width start).map
          (fun seg => List.range' seg.1 (seg.2 + 1 - seg.1))).flatten
        = List.range' start width := by
  intro width
  induction width using Nat.strong_induction_on with
  | _ width ih =>
      intro start
      rw [row_segments]
      split_ifs with h1 h2
      · rcases h1 with h | h
        · subst h
          simp
        · omega
      · push_neg at h1
        simp only [List.map_cons, List.map_nil, List.flatten_cons,
          List.flatten_nil, List.append_nil]
        have e : start + width - 1 + 1 - start = width := by omega
        rw [e]
      · push_neg at h1 h2
        simp only [List.map_cons, List.flatten_cons]
        rw [ih (width - budget) (by omega) (start + budget)]
        have e1 : start + budget - 1 + 1 - start = budget := by omega
        rw [e1, range'_append_nat]
        congr 1
        omega

/-- Every emitted segment is a nonempty inclusive column range of width at
most the budget, and it starts no earlier than `start`. -/
theorem row_segments_bound (budget : ℕ) (hb : 1 ≤ budget) :
    ∀ (width start : ℕ), ∀ seg ∈ row_segments budget width start,
      start ≤ seg.1 ∧ seg.1 ≤ seg.2 ∧ seg.2 + 1 - seg.1 ≤ budget := by
  intro width
  induction width using Nat.strong_induction_on with
  | _ width ih =>
      intro start seg hseg
      rw [row_segments] at hseg
      split_ifs at hseg with h1 h2
      · simp at hseg
      · rw [List.mem_singleton] at hseg
        subst hseg
        push_neg at h1
        dsimp only
        refine ⟨le_rfl, ?_, ?_⟩ <;> omega
      · push_neg at h1 h2
        rcases List.mem_cons.mp hseg with h | h
        · subst h
          dsimp only
          refine ⟨le_rfl, ?_, ?_⟩ <;> omega
        · have hrec := ih (width - budget) (by omega) (start + budget) seg h
          exact ⟨by omega, hrec.2.1, hrec.2.2⟩

/-- Every report of `commit_rows` is one segment report of one of the rows,
with the row index offset by the starting row. -/
theorem mem_commit_rows (alt : Bool) :
    ∀ (rows : List (List RGB)) (row0 : ℕ) (rep : List ℕ),
      rep ∈ commit_rows alt row0 rows →
      ∃ k seg, k < rows.length
        ∧ seg ∈ row_segments (segment_budget alt) (rows.getD k []).length 0
        ∧ rep = segment_args (row0 + k) (rows.getD k []) seg
  | [], row0, rep, h => by simp [commit_rows] at h
  | px :: rest, row0, rep, h => by
      rw [commit_rows] at h
      rcases List.mem_append.mp h with h | h
      · obtain ⟨seg, hseg, rfl⟩ := List.mem_map.mp h
        exact ⟨0, seg, by simp, by simpa using hseg, by simp⟩
      · obtain ⟨k, seg, hk, hseg, hrep⟩ := mem_commit_rows alt rest (row0 + 1) rep h
        refine ⟨k + 1, seg, ?_, ?_, ?_⟩
        · simp only [List.length_cons]
          omega
        · simpa using hseg
        · rw [hrep]
          have e : row0 + 1 + k = row0 + (k + 1) := by omega
          rw [e]
          simp

/-- C5: every report emitted by `commit_matrix` is a segment report of some
matrix row whose payload is `[row_index, start_col, end_col]` followed by
the 3-byte R,G,B triplets of exactly the covered columns; for every row the
emitted segments all carry that row's index and their covered column ranges
concatenate, in emission order, to the whole row (contiguous, left to
right); each segment is at most the column budget wide — 24 columns
standard, 26 triplets (at most 80 bytes of RGB) with custom_frame_alt. -/
theorem commit_matrix_spec (matrix : List (List RGB)) (alt : Bool) (k : ℕ)
    (_hk : k < matrix.length) :
    (∀ rep ∈ commit_matrix matrix alt, ∃ row seg,
        row < matrix.length
          ∧ seg ∈ row_segments (segment_budget alt) (matrix.getD row []).length 0
          ∧ rep = row :: seg.1 :: seg.2
              :: rgb_bytes (((matrix.getD row []).drop seg.1).take
                  (seg.2 + 1 - seg.1)))
      ∧ ((row_segments (segment_budget alt) (matrix.getD k []).length 0).map
            (fun seg => List.range' seg.1 (seg.2 + 1 - seg.1))).flatten
          = List.range' 0 (matrix.getD k []).length
      ∧ (∀ seg ∈ row_segments (segment_budget alt) (matrix.getD k []).length 0,
          seg.1 ≤ seg.2 ∧ seg.2 + 1 - seg.1 ≤ segment_budget alt
            ∧ 3 * (seg.2 + 1 - seg.1) ≤ if alt then 80 else 72)
      ∧ segment_budget false = 24 ∧ 3 * segment_budget true ≤ 80 := by
  have hb : 1 ≤ segment_budget alt := by cases alt <;> norm_num [segment_budget]
  refine ⟨?_, row_segments_cover _ hb _ _, ?_, rfl, by norm_num [segment_budget]⟩
  · intro rep hrep
    obtain ⟨kk, seg, hkk, hseg, hrepeq⟩ := mem_commit_rows alt matrix 0 rep hrep
    exact ⟨kk, seg, hkk, hseg, by simpa [segment_args] using hrepeq⟩
  · intro seg hseg
    have h := row_segments_bound _ hb _ _ seg hseg
    refine ⟨h.2.1, h.2.2, ?_⟩
    have hw := h.2.2
    cases alt <;> simp [segment_budget] at hw ⊢ <;> omega

/-- C5 witness: a 30-column row on the standard budget is covered exactly by
the emitted segments. -/
theorem commit_matrix_spec_witness :
    ((row_segments (segment_budget false)
          (([List.replicate 30 (⟨255, 0, 0⟩ : RGB)]).getD 0 []).length 0).map
        (fun seg => List.range' seg.1 (seg.2 + 1 - seg.1))).flatten
      = List.range' 0 (([List.replicate 30 (⟨255, 0, 0⟩ : RGB)]).getD 0 []).length :=
  (commit_matrix_spec [List.replicate 30 ⟨255, 0, 0⟩] false 0 (by decide)).2.1

end UChroma
